import Mathlib

set_option maxHeartbeats 1000000
set_option maxRecDepth 4000

/-!
Verification development for the go-cron-be job execution engine
(`internal/scheduler/scheduler.go` and its near-duplicate variant, plus
`internal/scheduler/erp_jobs.go`).

The embedding models the destination tables as in-memory lists, timestamps and
durations as natural numbers of milliseconds, and the fallible collaborators
(the remote fetch, the SQL driver) as explicit oracles.  Two variants of the
retry loop exist in the repository: the one in
`internal/scheduler/scheduler.go` (SQLite dialect, `execution_time_ms`
measured as `time.Since(start)`) and the one in the unnamed variant file
(MySQL dialect, `execution_time_ms` accumulated per attempt).  Both are
embedded below, sharing the definitions on which they agree.
-/

namespace GoCronBe

/-- A row fetched from the ERP view GOBO_UIBF062_V2 (`FuneralInvoiceRow` in
`erp_jobs.go`): invoice_date, c_idno2, total_amount_dividint10. -/
structure FuneralInvoiceRow where
  invoiceDate : String
  customerID : String
  totalAmount : Int
  deriving DecidableEq

/-- Natural key of the funeral_invoices table: `UNIQUE(invoice_date, c_idno2)`
declared by `initializeTables`. -/
def invKey (r : FuneralInvoiceRow) : String × String := (r.invoiceDate, r.customerID)

/-- The natural keys present in a funeral_invoices table state. -/
def tableKeys (t : List FuneralInvoiceRow) : List (String × String) := t.map invKey

/-- Existence test against the uniqueness constraint: does the table already
hold a row with the same (invoice_date, c_idno2)? -/
def hasKey (t : List FuneralInvoiceRow) (r : FuneralInvoiceRow) : Bool :=
  t.any fun x => decide (invKey x = invKey r)

/-- One `INSERT OR IGNORE` (SQLite) / `INSERT IGNORE` (MySQL) execution:
the row is appended when its natural key is absent, otherwise the statement
affects no rows.  The Bool is `rowsAffected > 0`. -/
def insertOrIgnore (t : List FuneralInvoiceRow) (r : FuneralInvoiceRow) :
    List FuneralInvoiceRow × Bool :=
  if hasKey t r then (t, false) else (t ++ [r], true)

/-- The effect on the table of running the insert loop with no driver errors. -/
def insertAll : List FuneralInvoiceRow → List FuneralInvoiceRow → List FuneralInvoiceRow
  | t, [] => t
  | t, r :: rs => insertAll (insertOrIgnore t r).1 rs

/-- The `stmt.Exec` loop of `storeFuneralInvoices`: one insert per record,
aborting on the first driver error.  `execErr i` is the error the driver
injects at the i-th execution (none when that execution succeeds).  Returns
the new table state and the inserted count, or the surfaced error. -/
def insertInvoices (execErr : Nat → Option String) :
    List FuneralInvoiceRow → Nat → List FuneralInvoiceRow → Nat →
    Except String (List FuneralInvoiceRow × Nat)
  | t, _, [], count => Except.ok (t, count)
  | t, i, r :: rs, count =>
    match execErr i with
    | some e => Except.error ("inserting invoice: " ++ e)
    | none =>
      let p := insertOrIgnore t r
      insertInvoices execErr p.1 (i + 1) rs (count + if p.2 then 1 else 0)

/-- `storeFuneralInvoices` (scheduler.go lines 132-169): no-op on empty input;
otherwise begin a transaction, insert each record with insert-or-ignore
semantics, and commit.  Any error path rolls the transaction back
(`defer tx.Rollback()`), so the visible table is the original one on every
error.  `beginErr`, `prepErr`, `commitErr` and `execErr` model the fallible
driver calls.  Returns the table visible after the call and the outcome. -/
def storeFuneralInvoices (beginErr prepErr commitErr : Option String)
    (execErr : Nat → Option String) (table invoices : List FuneralInvoiceRow) :
    List FuneralInvoiceRow × Except String Nat :=
  if invoices.isEmpty then (table, Except.ok 0)
  else
    match beginErr with
    | some e => (table, Except.error ("beginning transaction: " ++ e))
    | none =>
      match prepErr with
      | some e => (table, Except.error ("preparing statement: " ++ e))
      | none =>
        match insertInvoices execErr table 0 invoices 0 with
        | Except.error e => (table, Except.error e)
        | Except.ok (t2, count) =>
          match commitErr with
          | some e => (table, Except.error ("committing transaction: " ++ e))
          | none => (t2, Except.ok count)

/-- The table left behind by a `storeFuneralInvoices` call on which the driver
injects no failure. -/
def storeAll (table invoices : List FuneralInvoiceRow) : List FuneralInvoiceRow :=
  (storeFuneralInvoices none none none (fun _ => none) table invoices).1

/-- A job_executions row (`JobExecution` in scheduler.go).  Timestamps are
abstract milliseconds.  message, execution_time_ms and finished_at are NULL
(`none`) until first written, per the schema defaults. -/
structure JobExecution where
  jobName : String
  jobDate : String
  jobParams : String
  jobStatus : String
  message : Option String
  executionTimeMs : Option Nat
  retryCount : Nat
  maxRetries : Nat
  createdAt : Nat
  updatedAt : Nat
  finishedAt : Option Nat
  deriving DecidableEq

/-- The SQL CASE test of `updateJobExecution`:
`? IN ('finished', 'failed')`. -/
def isTerminalStatus (s : String) : Bool := s == "finished" || s == "failed"

/-- The argument tuple of one `updateJobExecution` call, plus the
CURRENT_TIMESTAMP at which the statement runs. -/
structure UpdateArgs where
  status : String
  message : String
  executionTimeMs : Nat
  retryCount : Nat
  now : Nat
  deriving DecidableEq

/-- Row INSERTed by `createJobExecution`: explicit columns job_name, job_date,
job_params, max_retries; the rest take the schema defaults (job_status
'pending', retry_count 0, finished_at NULL). -/
def mkJobExecution (jobName jobDate jobParams : String) (maxRetries : Nat)
    (now : Nat) : JobExecution :=
  { jobName := jobName
    jobDate := jobDate
    jobParams := jobParams
    jobStatus := "pending"
    message := none
    executionTimeMs := none
    retryCount := 0
    maxRetries := maxRetries
    createdAt := now
    updatedAt := now
    finishedAt := none }

/-- `updateJobExecution` (scheduler.go lines 120-129): sets job_status,
message, execution_time_ms, retry_count and updated_at, and sets finished_at
to CURRENT_TIMESTAMP exactly when the new status is 'finished' or 'failed'
(the CASE keeps the old finished_at otherwise). -/
def updateJobExecution (row : JobExecution) (u : UpdateArgs) : JobExecution :=
  { row with
    jobStatus := u.status
    message := some u.message
    executionTimeMs := some u.executionTimeMs
    retryCount := u.retryCount
    updatedAt := u.now
    finishedAt := if isTerminalStatus u.status then some u.now else row.finishedAt }

/-- Replay a sequence of `updateJobExecution` calls against a row. -/
def applyUpdates (row : JobExecution) (us : List UpdateArgs) : JobExecution :=
  us.foldl updateJobExecution row

/-- Observable actions of one `executeJobWithRetry` run, in order: a ledger
update, a fetch attempt (with its elapsed milliseconds), a backoff sleep, or a
`storeFuneralInvoices` call (with its elapsed milliseconds). -/
inductive Event where
  | fetch (attemptIdx durationMs : Nat)
  | update (u : UpdateArgs)
  | sleep (durationMs : Nat)
  | store (durationMs : Nat)
  deriving DecidableEq

/-- The ledger updates issued during a run, in order. -/
def updatesOf (evs : List Event) : List UpdateArgs :=
  evs.filterMap fun e =>
    match e with
    | Event.update u => some u
    | _ => none

/-- The backoff sleeps performed during a run, in order. -/
def sleepsOf (evs : List Event) : List Nat :=
  evs.filterMap fun e =>
    match e with
    | Event.sleep d => some d
    | _ => none

/-- How many fetch attempts a run performed. -/
def countFetch (evs : List Event) : Nat :=
  (evs.filter fun e =>
    match e with
    | Event.fetch _ _ => true
    | _ => false).length

/-- Whether a trace contains a fetch attempt. -/
def hasFetch (evs : List Event) : Bool :=
  evs.any fun e =>
    match e with
    | Event.fetch _ _ => true
    | _ => false

/-- No fetch attempt occurs anywhere after a store call in the trace. -/
def noFetchAfterStore : List Event → Bool
  | [] => true
  | Event.store _ :: rest => !hasFetch rest && noFetchAfterStore rest
  | _ :: rest => noFetchAfterStore rest

/-- Milliseconds spent inside fetch and store calls in a trace; backoff sleeps
and ledger updates contribute nothing. -/
def fetchStoreTime (evs : List Event) : Nat :=
  (evs.map fun e =>
    match e with
    | Event.fetch _ d => d
    | Event.store d => d
    | _ => 0).sum

/-- The backoff delay of scheduler.go line 222,
`time.Duration(1<<uint(retryCount-1)) * time.Minute`, in milliseconds. -/
def backoffMs (retryCount : Nat) : Nat := (1 <<< (retryCount - 1)) * 60000

/-- scheduler.go line 209: `"Job failed (attempt %d/%d): %v"`. -/
def mkFailMsg (attempt maxAttempts : Nat) (err : String) : String :=
  "Job failed (attempt " ++ toString attempt ++ "/" ++ toString maxAttempts ++
    "): " ++ err

/-- scheduler.go line 230: `"Job completed but failed to store data: %v"`. -/
def mkStoreFailMsg (err : String) : String :=
  "Job completed but failed to store data: " ++ err

/-- scheduler.go line 237: `"Successfully fetched and stored %d invoices"`. -/
def mkSuccessMsg (count : Nat) : String :=
  "Successfully fetched and stored " ++ toString count ++ " invoices"

/-- One `GetFuneralInvoiceByDate` oracle: for each attempt index, the result
(rows or error) and the elapsed milliseconds of the call. -/
abbrev FetchOracle := Nat → Except String (List FuneralInvoiceRow) × Nat

/-- One `storeFuneralInvoices` oracle at the retry-loop layer: the outcome of
storing the fetched records (inserted count or error). -/
abbrev StoreOracle := List FuneralInvoiceRow → Except String Nat

/-- The loop of `executeJobWithRetry` (scheduler.go lines 188-242), one fuel
unit per iteration.  `clock` is milliseconds since `start` (so `executionTime
:= time.Since(start).Milliseconds()` is the clock value right after the fetch
returns).  The loop runs while `retryCount <= maxRetries` with the hardcoded
local `maxRetries := 3`, and every iteration either returns or increments
retryCount, so `maxRetries + 1 = 4` fuel units cover every run; the fuel-zero
case is the (never reached from the entry point) fall-through exit of the
`for` loop.  Returns the event trace and the final ledger row. -/
def runRetry (fetch : FetchOracle) (storeResult : StoreOracle) (storeMs : Nat) :
    Nat → Nat → Nat → JobExecution → List Event × JobExecution
  | 0, _, _, row => ([], row)
  | fuel + 1, retryCount, clock, row =>
    if 3 < retryCount then ([], row)
    else
      let status := if 0 < retryCount then "retrying" else "running"
      let u0 : UpdateArgs := ⟨status, "", 0, retryCount, clock⟩
      let row0 := updateJobExecution row u0
      match fetch retryCount with
      | (Except.error e, d) =>
        let clock1 := clock + d
        let executionTime := clock1
        let rc1 := retryCount + 1
        let message := mkFailMsg rc1 (3 + 1) e
        if 3 < rc1 then
          let u1 : UpdateArgs := ⟨"failed", message, executionTime, rc1 - 1, clock1⟩
          ([Event.update u0, Event.fetch retryCount d, Event.update u1],
            updateJobExecution row0 u1)
        else
          let u1 : UpdateArgs := ⟨"retrying", message, executionTime, rc1 - 1, clock1⟩
          let b := backoffMs rc1
          let rest := runRetry fetch storeResult storeMs fuel rc1 (clock1 + b)
            (updateJobExecution row0 u1)
          (Event.update u0 :: Event.fetch retryCount d :: Event.update u1 ::
            Event.sleep b :: rest.1, rest.2)
      | (Except.ok invoices, d) =>
        let clock1 := clock + d
        let executionTime := clock1
        match storeResult invoices with
        | Except.error se =>
          let u1 : UpdateArgs :=
            ⟨"failed", mkStoreFailMsg se, executionTime, retryCount, clock1 + storeMs⟩
          ([Event.update u0, Event.fetch retryCount d, Event.store storeMs,
            Event.update u1], updateJobExecution row0 u1)
        | Except.ok _ =>
          let u1 : UpdateArgs :=
            ⟨"finished", mkSuccessMsg invoices.length, executionTime, retryCount,
              clock1 + storeMs⟩
          ([Event.update u0, Event.fetch retryCount d, Event.store storeMs,
            Event.update u1], updateJobExecution row0 u1)

/-- `executeJobWithRetry` (scheduler.go): `start := time.Now()`, retryCount 0,
maxRetries 3; four fuel units cover the at most four loop iterations. -/
def executeJobWithRetry (fetch : FetchOracle) (storeResult : StoreOracle)
    (storeMs : Nat) (row : JobExecution) : List Event × JobExecution :=
  runRetry fetch storeResult storeMs 4 0 0 row

/-- Variant file, fail message:
`"Job failed (attempt %d/%d, took %dms): %v"`. -/
def mkFailMsgV (attempt maxAttempts tookMs : Nat) (err : String) : String :=
  "Job failed (attempt " ++ toString attempt ++ "/" ++ toString maxAttempts ++
    ", took " ++ toString tookMs ++ "ms): " ++ err

/-- Variant file, store-failure message:
`"Job completed but failed to store data (exec: %dms, store: %dms): %v"`. -/
def mkStoreFailMsgV (execMs stMs : Nat) (err : String) : String :=
  "Job completed but failed to store data (exec: " ++ toString execMs ++
    "ms, store: " ++ toString stMs ++ "ms): " ++ err

/-- Variant file, success message:
`"Successfully fetched and stored %d invoices (exec: %dms, store: %dms)"`. -/
def mkSuccessMsgV (count execMs stMs : Nat) : String :=
  "Successfully fetched and stored " ++ toString count ++ " invoices (exec: " ++
    toString execMs ++ "ms, store: " ++ toString stMs ++ "ms)"

/-- The loop of `executeJobWithRetry` in the variant scheduler file (unnamed
part_000, lines 190-248): same control flow as `runRetry`, but
`totalExecutionTime` accumulates only the measured fetch durations
(`attemptStart`/`attemptDuration`) and the measured store duration, never the
backoff sleeps, and the ledger updates persist that accumulator. -/
def runRetryV (fetch : FetchOracle) (storeResult : StoreOracle) (storeMs : Nat) :
    Nat → Nat → Nat → Nat → JobExecution → List Event × JobExecution
  | 0, _, _, _, row => ([], row)
  | fuel + 1, retryCount, clock, total, row =>
    if 3 < retryCount then ([], row)
    else
      let status := if 0 < retryCount then "retrying" else "running"
      let u0 : UpdateArgs := ⟨status, "", 0, retryCount, clock⟩
      let row0 := updateJobExecution row u0
      match fetch retryCount with
      | (Except.error e, d) =>
        let clock1 := clock + d
        let total1 := total + d
        let rc1 := retryCount + 1
        let message := mkFailMsgV rc1 (3 + 1) d e
        if 3 < rc1 then
          let u1 : UpdateArgs := ⟨"failed", message, total1, rc1 - 1, clock1⟩
          ([Event.update u0, Event.fetch retryCount d, Event.update u1],
            updateJobExecution row0 u1)
        else
          let u1 : UpdateArgs := ⟨"retrying", message, total1, rc1 - 1, clock1⟩
          let b := backoffMs rc1
          let rest := runRetryV fetch storeResult storeMs fuel rc1 (clock1 + b)
            total1 (updateJobExecution row0 u1)
          (Event.update u0 :: Event.fetch retryCount d :: Event.update u1 ::
            Event.sleep b :: rest.1, rest.2)
      | (Except.ok invoices, d) =>
        let clock1 := clock + d
        let total1 := total + d
        match storeResult invoices with
        | Except.error se =>
          let total2 := total1 + storeMs
          let u1 : UpdateArgs :=
            ⟨"failed", mkStoreFailMsgV d storeMs se, total2, retryCount,
              clock1 + storeMs⟩
          ([Event.update u0, Event.fetch retryCount d, Event.store storeMs,
            Event.update u1], updateJobExecution row0 u1)
        | Except.ok _ =>
          let total2 := total1 + storeMs
          let u1 : UpdateArgs :=
            ⟨"finished", mkSuccessMsgV invoices.length d storeMs, total2,
              retryCount, clock1 + storeMs⟩
          ([Event.update u0, Event.fetch retryCount d, Event.store storeMs,
            Event.update u1], updateJobExecution row0 u1)

/-- `executeJobWithRetry` of the variant scheduler file: retryCount 0,
maxRetries 3, `var totalExecutionTime int64` starting at 0. -/
def executeJobWithRetryV (fetch : FetchOracle) (storeResult : StoreOracle)
    (storeMs : Nat) (row : JobExecution) : List Event × JobExecution :=
  runRetryV fetch storeResult storeMs 4 0 0 0 row

/-- The JSON the engine serializes for `JobParams` (`json.Marshal` of the
struct with the invoice_date field). -/
def paramsJSON (invoiceDate : String) : String :=
  "\x7b\"invoice_date\":\"" ++ invoiceDate ++ "\"\x7d"

/-- Schema fact from `initializeTables` (scheduler.go lines 64-84): the
job_executions table declares no UNIQUE constraint on (job_name, job_date) —
`idx_job_executions_job_name_date` is a plain (non-unique) index. -/
def jobExecutionsHasUniqueNameDate : Bool := false

/-- `createJobExecution` (scheduler.go lines 104-117): a plain INSERT of
(job_name, job_date, job_params, max_retries); with no uniqueness constraint
on (job_name, job_date) it appends unconditionally.  Returns the new table
state and LastInsertId. -/
def createJobExecution (tbl : List JobExecution) (jobName jobDate jobParams : String)
    (maxRetries : Nat) (now : Nat) : List JobExecution × Nat :=
  (tbl ++ [mkJobExecution jobName jobDate jobParams maxRetries now], tbl.length + 1)

/-- `executeFuneralInvoiceJob` (scheduler.go lines 172-185): create the ledger
row with jobName "get-funeral-invoice" and maxRetries 3; on creation failure
(`createErr`) log the error and return at once — the first component carries
that logged error and no fetch, update or sleep happens; otherwise run
`executeJobWithRetry`. -/
def executeFuneralInvoiceJob (createErr : Option String) (fetch : FetchOracle)
    (storeResult : StoreOracle) (storeMs : Nat) (jobDate : String) (now : Nat) :
    Option String × List Event × Option JobExecution :=
  match createErr with
  | some e => (some ("creating job execution: " ++ e), [], none)
  | none =>
    let row := mkJobExecution ("get-funeral-invoice") jobDate (paramsJSON jobDate) 3 now
    let r := executeJobWithRetry fetch storeResult storeMs row
    (none, r.1, some r.2)

/-- The flow of `executeFuneralInvoiceJob` generalized over the maxRetries
value handed to `createJobExecution`: the created row records `m` in its
max_retries column, but `executeJobWithRetry` receives only (jobID, jobName,
targetDate) and re-hardcodes its own local `maxRetries := 3`, never reading
the row's column. -/
def executeJobCreatedWith (m : Nat) (fetch : FetchOracle) (storeResult : StoreOracle)
    (storeMs : Nat) (jobDate : String) (now : Nat) : List Event × JobExecution :=
  executeJobWithRetry fetch storeResult storeMs
    (mkJobExecution ("get-funeral-invoice") jobDate (paramsJSON jobDate) m now)

/-- String containment, used to state that a ledger message carries an error
text verbatim. -/
def containsStr (s sub : String) : Prop :=
  ∃ p q, s.data = p ++ sub.data ++ q

theorem hasKey_eq_true_iff {t : List FuneralInvoiceRow} {r : FuneralInvoiceRow} :
    hasKey t r = true ↔ invKey r ∈ tableKeys t := by
  simp [hasKey, List.any_eq_true, tableKeys, List.mem_map]

theorem tableKeys_insertOrIgnore (t : List FuneralInvoiceRow)
    (r : FuneralInvoiceRow) :
    tableKeys (insertOrIgnore t r).1 =
      if hasKey t r then tableKeys t else tableKeys t ++ [invKey r] := by
  by_cases h : hasKey t r <;> simp [insertOrIgnore, h, tableKeys]

theorem mem_tableKeys_insertAll_of_mem {k : String × String} :
    ∀ (rs t : List FuneralInvoiceRow), k ∈ tableKeys t →
      k ∈ tableKeys (insertAll t rs)
  | [], _, h => h
  | r :: rs, t, h => by
    apply mem_tableKeys_insertAll_of_mem rs
    rw [tableKeys_insertOrIgnore]
    split
    · exact h
    · exact List.mem_append_left _ h

theorem invKey_mem_insertAll {r : FuneralInvoiceRow} :
    ∀ (rs t : List FuneralInvoiceRow), r ∈ rs →
      invKey r ∈ tableKeys (insertAll t rs)
  | r0 :: rs, t, h => by
    rcases List.mem_cons.1 h with h0 | h0
    · subst h0
      apply mem_tableKeys_insertAll_of_mem rs
      rw [tableKeys_insertOrIgnore]
      by_cases hk : hasKey t r
      · simp only [hk, if_true]
        exact hasKey_eq_true_iff.1 hk
      · simp [hk]
    · exact invKey_mem_insertAll rs _ h0

theorem insertAll_eq_self :
    ∀ (rs t : List FuneralInvoiceRow), (∀ r ∈ rs, invKey r ∈ tableKeys t) →
      insertAll t rs = t
  | [], _, _ => rfl
  | r :: rs, t, h => by
    have hk : hasKey t r = true :=
      hasKey_eq_true_iff.2 (h r (List.mem_cons_self r rs))
    have h1 : insertOrIgnore t r = (t, false) := by simp [insertOrIgnore, hk]
    rw [insertAll, h1]
    exact insertAll_eq_self rs t fun x hx => h x (List.mem_cons_of_mem _ hx)

theorem insertAll_idempotent (t rs : List FuneralInvoiceRow) :
    insertAll (insertAll t rs) rs = insertAll t rs :=
  insertAll_eq_self rs _ fun _ hr => invKey_mem_insertAll rs t hr

theorem nodup_tableKeys_insertAll :
    ∀ (rs t : List FuneralInvoiceRow), (tableKeys t).Nodup →
      (tableKeys (insertAll t rs)).Nodup
  | [], _, h => h
  | r :: rs, t, h => by
    apply nodup_tableKeys_insertAll rs
    rw [tableKeys_insertOrIgnore]
    by_cases hk : hasKey t r
    · simpa [hk] using h
    · have hnot : invKey r ∉ tableKeys t := fun hmem => hk (hasKey_eq_true_iff.2 hmem)
      simp [hk, List.nodup_append, h, hnot]

theorem tableKeys_insertAll_subset :
    ∀ (rs t : List FuneralInvoiceRow),
      tableKeys (insertAll t rs) ⊆ tableKeys t ++ rs.map invKey
  | [], t => by simp [insertAll, List.Subset.refl]
  | r :: rs, t => by
    intro k hk
    have h1 := tableKeys_insertAll_subset rs (insertOrIgnore t r).1 hk
    rw [tableKeys_insertOrIgnore] at h1
    by_cases hcase : hasKey t r
    · rw [if_pos hcase] at h1
      simp only [List.mem_append] at h1
      simp only [List.map_cons, List.mem_append, List.mem_cons]
      tauto
    · rw [if_neg hcase] at h1
      simp only [List.mem_append, List.mem_singleton] at h1
      simp only [List.map_cons, List.mem_append, List.mem_cons]
      tauto

theorem insertInvoices_noErr :
    ∀ (rs t : List FuneralInvoiceRow) (i c : Nat),
      ∃ n, insertInvoices (fun _ => none) t i rs c =
        Except.ok (insertAll t rs, n)
  | [], t, i, c => ⟨c, rfl⟩
  | r :: rs, t, i, c => by
    rcases insertInvoices_noErr rs (insertOrIgnore t r).1 (i + 1)
      (c + if (insertOrIgnore t r).2 then 1 else 0) with ⟨n, hn⟩
    exact ⟨n, by rw [insertInvoices]; exact hn⟩

theorem storeAll_eq_insertAll (t rs : List FuneralInvoiceRow) :
    storeAll t rs = insertAll t rs := by
  cases rs with
  | nil => rfl
  | cons r rs =>
    rcases insertInvoices_noErr (r :: rs) t 0 0 with ⟨n, hn⟩
    simp [storeAll, storeFuneralInvoices, hn]

/-- C2: storFe idempotence and the natural-key bound: storing the same record
set twice leaves the funeral_invoices table exactly as one store does, and a
store into an empty table never yields more rows than there are distinct
(invoice_date, c_idno2) keys among the records. -/
theorem storeAll_idempotent_and_bounded (table R : List FuneralInvoiceRow) :
    storeAll (storeAll table R) R = storeAll table R ∧
      (storeAll [] R).length ≤ ((R.map invKey).dedup).length := by
  constructor
  · simp only [storeAll_eq_insertAll]
    exact insertAll_idempotent table R
  · rw [storeAll_eq_insertAll]
    have hlen : (insertAll [] R).length = (tableKeys (insertAll [] R)).length := by
      simp [tableKeys]
    rw [hlen]
    have hnodup : (tableKeys (insertAll [] R)).Nodup :=
      nodup_tableKeys_insertAll R [] (by simp [tableKeys])
    have hsub : tableKeys (insertAll [] R) ⊆ (R.map invKey).dedup := by
      intro k hk
      have := tableKeys_insertAll_subset R [] hk
      rw [List.mem_dedup]
      simpa [tableKeys] using this
    exact (List.subperm_of_subset hnodup hsub).length_le

theorem insertInvoices_err (execErr : Nat → Option String) (e : String) :
    ∀ (rs t : List FuneralInvoiceRow) (idx c i : Nat), i < rs.length →
      (∀ j, j < i → execErr (idx + j) = none) → execErr (idx + i) = some e →
      insertInvoices execErr t idx rs c =
        Except.error ("inserting invoice: " ++ e)
  | [], _, _, _, i, hi, _, _ => absurd hi (by simp)
  | _ :: rs, t, idx, c, 0, _, _, herr => by
    rw [insertInvoices]
    simp only [Nat.add_zero] at herr
    rw [herr]
  | r :: rs, t, idx, c, i + 1, hi, hfirst, herr => by
    have h0 : execErr idx = none := by simpa using hfirst 0 (Nat.succ_pos i)
    rw [insertInvoices, h0]
    refine insertInvoices_err execErr e rs _ (idx + 1) _ i
      (Nat.lt_of_succ_lt_succ hi) (fun j hj => ?_) ?_
    · have := hfirst (j + 1) (Nat.succ_lt_succ hj)
      simpa [Nat.add_assoc, Nat.add_comm 1 j] using this
    · simpa [Nat.add_assoc, Nat.add_comm 1 i] using herr

/-- C6: if any single insert inside storeFuneralInvoices fails (the driver
errors on the i-th execution), the whole batch rolls back: the visible table
is exactly the original one and the insert error is surfaced to the caller. -/
theorem store_insert_error_rolls_back (commitErr : Option String)
    (execErr : Nat → Option String) (table invoices : List FuneralInvoiceRow)
    (i : Nat) (e : String) (hi : i < invoices.length)
    (hfirst : ∀ j, j < i → execErr j = none) (herr : execErr i = some e) :
    storeFuneralInvoices none none commitErr execErr table invoices =
      (table, Except.error ("inserting invoice: " ++ e)) := by
  have hne : invoices.isEmpty = false := by
    cases invoices with
    | nil => simp at hi
    | cons a l => rfl
  have hloop := insertInvoices_err execErr e invoices table 0 0 i hi
    (fun j hj => by simpa using hfirst j hj) (by simpa using herr)
  simp [storeFuneralInvoices, hne, hloop]

theorem runRetry_fail_last (fetch : FetchOracle) (storeResult : StoreOracle)
    (storeMs fuel clock : Nat) (row : JobExecution) (e : String) (d : Nat)
    (hf : fetch 3 = (Except.error e, d)) :
    runRetry fetch storeResult storeMs (fuel + 1) 3 clock row =
      ([Event.update ⟨"retrying", "", 0, 3, clock⟩, Event.fetch 3 d,
        Event.update ⟨"failed", mkFailMsg 4 4 e, clock + d, 3, clock + d⟩],
       updateJobExecution
         (updateJobExecution row ⟨"retrying", "", 0, 3, clock⟩)
         ⟨"failed", mkFailMsg 4 4 e, clock + d, 3, clock + d⟩) := by
  simp [runRetry, hf]

theorem runRetry_fail_cont (fetch : FetchOracle) (storeResult : StoreOracle)
    (storeMs fuel rc clock : Nat) (row : JobExecution) (e : String) (d : Nat)
    (hrc : rc < 3) (hf : fetch rc = (Except.error e, d)) :
    runRetry fetch storeResult storeMs (fuel + 1) rc clock row =
      (Event.update ⟨if 0 < rc then "retrying" else "running", "", 0, rc, clock⟩ ::
        Event.fetch rc d ::
        Event.update ⟨"retrying", mkFailMsg (rc + 1) 4 e, clock + d, rc, clock + d⟩ ::
        Event.sleep (backoffMs (rc + 1)) ::
        (runRetry fetch storeResult storeMs fuel (rc + 1)
          (clock + d + backoffMs (rc + 1))
          (updateJobExecution
            (updateJobExecution row
              ⟨if 0 < rc then "retrying" else "running", "", 0, rc, clock⟩)
            ⟨"retrying", mkFailMsg (rc + 1) 4 e, clock + d, rc, clock + d⟩)).1,
       (runRetry fetch storeResult storeMs fuel (rc + 1)
          (clock + d + backoffMs (rc + 1))
          (updateJobExecution
            (updateJobExecution row
              ⟨if 0 < rc then "retrying" else "running", "", 0, rc, clock⟩)
            ⟨"retrying", mkFailMsg (rc + 1) 4 e, clock + d, rc, clock + d⟩)).2) := by
  have h1 : ¬ 3 < rc := by omega
  have h2 : ¬ 3 < rc + 1 := by omega
  simp [runRetry, h1, h2, hf]

theorem runRetry_ok_storeFail (fetch : FetchOracle) (storeResult : StoreOracle)
    (storeMs fuel rc clock : Nat) (row : JobExecution)
    (inv : List FuneralInvoiceRow) (d : Nat) (se : String)
    (hrc : rc ≤ 3) (hf : fetch rc = (Except.ok inv, d))
    (hs : storeResult inv = Except.error se) :
    runRetry fetch storeResult storeMs (fuel + 1) rc clock row =
      ([Event.update ⟨if 0 < rc then "retrying" else "running", "", 0, rc, clock⟩,
        Event.fetch rc d, Event.store storeMs,
        Event.update ⟨"failed", mkStoreFailMsg se, clock + d, rc, clock + d + storeMs⟩],
       updateJobExecution
         (updateJobExecution row
           ⟨if 0 < rc then "retrying" else "running", "", 0, rc, clock⟩)
         ⟨"failed", mkStoreFailMsg se, clock + d, rc, clock + d + storeMs⟩) := by
  have h1 : ¬ 3 < rc := by omega
  simp [runRetry, h1, hf, hs]

theorem runRetry_ok_storeOk (fetch : FetchOracle) (storeResult : StoreOracle)
    (storeMs fuel rc clock : Nat) (row : JobExecution)
    (inv : List FuneralInvoiceRow) (d n : Nat)
    (hrc : rc ≤ 3) (hf : fetch rc = (Except.ok inv, d))
    (hs : storeResult inv = Except.ok n) :
    runRetry fetch storeResult storeMs (fuel + 1) rc clock row =
      ([Event.update ⟨if 0 < rc then "retrying" else "running", "", 0, rc, clock⟩,
        Event.fetch rc d, Event.store storeMs,
        Event.update ⟨"finished", mkSuccessMsg inv.length, clock + d, rc,
          clock + d + storeMs⟩],
       updateJobExecution
         (updateJobExecution row
           ⟨if 0 < rc then "retrying" else "running", "", 0, rc, clock⟩)
         ⟨"finished", mkSuccessMsg inv.length, clock + d, rc, clock + d + storeMs⟩) := by
  have h1 : ¬ 3 < rc := by omega
  simp [runRetry, h1, hf, hs]

@[simp] theorem updatesOf_nil : updatesOf [] = [] := rfl

@[simp] theorem updatesOf_cons_update (u : UpdateArgs) (evs : List Event) :
    updatesOf (Event.update u :: evs) = u :: updatesOf evs := rfl

@[simp] theorem updatesOf_cons_fetch (i d : Nat) (evs : List Event) :
    updatesOf (Event.fetch i d :: evs) = updatesOf evs := rfl

@[simp] theorem updatesOf_cons_sleep (d : Nat) (evs : List Event) :
    updatesOf (Event.sleep d :: evs) = updatesOf evs := rfl

@[simp] theorem updatesOf_cons_store (d : Nat) (evs : List Event) :
    updatesOf (Event.store d :: evs) = updatesOf evs := rfl

@[simp] theorem sleepsOf_nil : sleepsOf [] = [] := rfl

@[simp] theorem sleepsOf_cons_update (u : UpdateArgs) (evs : List Event) :
    sleepsOf (Event.update u :: evs) = sleepsOf evs := rfl

@[simp] theorem sleepsOf_cons_fetch (i d : Nat) (evs : List Event) :
    sleepsOf (Event.fetch i d :: evs) = sleepsOf evs := rfl

@[simp] theorem sleepsOf_cons_sleep (d : Nat) (evs : List Event) :
    sleepsOf (Event.sleep d :: evs) = d :: sleepsOf evs := rfl

@[simp] theorem sleepsOf_cons_store (d : Nat) (evs : List Event) :
    sleepsOf (Event.store d :: evs) = sleepsOf evs := rfl

@[simp] theorem countFetch_nil : countFetch [] = 0 := rfl

@[simp] theorem countFetch_cons_update (u : UpdateArgs) (evs : List Event) :
    countFetch (Event.update u :: evs) = countFetch evs := by
  simp [countFetch]

@[simp] theorem countFetch_cons_fetch (i d : Nat) (evs : List Event) :
    countFetch (Event.fetch i d :: evs) = countFetch evs + 1 := by
  simp [countFetch]

@[simp] theorem countFetch_cons_sleep (d : Nat) (evs : List Event) :
    countFetch (Event.sleep d :: evs) = countFetch evs := by
  simp [countFetch]

@[simp] theorem countFetch_cons_store (d : Nat) (evs : List Event) :
    countFetch (Event.store d :: evs) = countFetch evs := by
  simp [countFetch]

@[simp] theorem hasFetch_nil : hasFetch [] = false := rfl

@[simp] theorem hasFetch_cons_update (u : UpdateArgs) (evs : List Event) :
    hasFetch (Event.update u :: evs) = hasFetch evs := by
  simp [hasFetch]

@[simp] theorem hasFetch_cons_fetch (i d : Nat) (evs : List Event) :
    hasFetch (Event.fetch i d :: evs) = true := by
  simp [hasFetch]

@[simp] theorem hasFetch_cons_sleep (d : Nat) (evs : List Event) :
    hasFetch (Event.sleep d :: evs) = hasFetch evs := by
  simp [hasFetch]

@[simp] theorem hasFetch_cons_store (d : Nat) (evs : List Event) :
    hasFetch (Event.store d :: evs) = hasFetch evs := by
  simp [hasFetch]

@[simp] theorem noFetchAfterStore_nil : noFetchAfterStore [] = true := rfl

@[simp] theorem noFetchAfterStore_cons_update (u : UpdateArgs) (evs : List Event) :
    noFetchAfterStore (Event.update u :: evs) = noFetchAfterStore evs := rfl

@[simp] theorem noFetchAfterStore_cons_fetch (i d : Nat) (evs : List Event) :
    noFetchAfterStore (Event.fetch i d :: evs) = noFetchAfterStore evs := rfl

@[simp] theorem noFetchAfterStore_cons_sleep (d : Nat) (evs : List Event) :
    noFetchAfterStore (Event.sleep d :: evs) = noFetchAfterStore evs := rfl

@[simp] theorem noFetchAfterStore_cons_store (d : Nat) (evs : List Event) :
    noFetchAfterStore (Event.store d :: evs) =
      (!hasFetch evs && noFetchAfterStore evs) := rfl

@[simp] theorem fetchStoreTime_nil : fetchStoreTime [] = 0 := rfl

@[simp] theorem fetchStoreTime_cons_update (u : UpdateArgs) (evs : List Event) :
    fetchStoreTime (Event.update u :: evs) = fetchStoreTime evs := by
  simp [fetchStoreTime]

@[simp] theorem fetchStoreTime_cons_fetch (i d : Nat) (evs : List Event) :
    fetchStoreTime (Event.fetch i d :: evs) = d + fetchStoreTime evs := by
  simp [fetchStoreTime]

@[simp] theorem fetchStoreTime_cons_sleep (d : Nat) (evs : List Event) :
    fetchStoreTime (Event.sleep d :: evs) = fetchStoreTime evs := by
  simp [fetchStoreTime]

@[simp] theorem fetchStoreTime_cons_store (d : Nat) (evs : List Event) :
    fetchStoreTime (Event.store d :: evs) = d + fetchStoreTime evs := by
  simp [fetchStoreTime]

theorem runRetry_allFail (errs : Nat → String) (durs : Nat → Nat)
    (storeResult : StoreOracle) (storeMs : Nat) :
    ∀ (fuel rc clock : Nat) (row : JobExecution), rc ≤ 3 → 4 ≤ fuel + rc →
      (runRetry (fun k => (Except.error (errs k), durs k)) storeResult storeMs
          fuel rc clock row).2.jobStatus = "failed" ∧
      (runRetry (fun k => (Except.error (errs k), durs k)) storeResult storeMs
          fuel rc clock row).2.retryCount = 3 ∧
      (runRetry (fun k => (Except.error (errs k), durs k)) storeResult storeMs
          fuel rc clock row).2.message = some (mkFailMsg 4 4 (errs 3)) ∧
      sleepsOf (runRetry (fun k => (Except.error (errs k), durs k)) storeResult
          storeMs fuel rc clock row).1 =
        (List.range' (rc + 1) (3 - rc)).map backoffMs ∧
      countFetch (runRetry (fun k => (Except.error (errs k), durs k)) storeResult
          storeMs fuel rc clock row).1 = 4 - rc := by
  intro fuel
  induction fuel with
  | zero => intro rc clock row h1 h2; omega
  | succ fuel ih =>
    intro rc clock row h1 h2
    by_cases hrc : rc = 3
    · subst hrc
      rw [runRetry_fail_last _ storeResult storeMs fuel clock row (errs 3)
        (durs 3) rfl]
      refine ⟨rfl, rfl, rfl, ?_, ?_⟩
      · simp [sleepsOf]
      · simp [countFetch]
    · have hlt : rc < 3 := by omega
      rw [runRetry_fail_cont _ storeResult storeMs fuel rc clock row (errs rc)
        (durs rc) hlt rfl]
      obtain ⟨ih1, ih2, ih3, ih4, ih5⟩ := ih (rc + 1)
        (clock + durs rc + backoffMs (rc + 1))
        (updateJobExecution
          (updateJobExecution row
            ⟨if 0 < rc then "retrying" else "running", "", 0, rc, clock⟩)
          ⟨"retrying", mkFailMsg (rc + 1) 4 (errs rc), clock + durs rc, rc,
            clock + durs rc⟩)
        (by omega) (by omega)
      refine ⟨ih1, ih2, ih3, ?_, ?_⟩
      · rw [show (3 : Nat) - rc = (3 - (rc + 1)) + 1 from by omega,
          List.range'_succ, List.map_cons]
        simp only [sleepsOf_cons_update, sleepsOf_cons_fetch, sleepsOf_cons_sleep]
        exact congrArg (backoffMs (rc + 1) :: ·) ih4
      · simp only [countFetch_cons_update, countFetch_cons_fetch,
          countFetch_cons_sleep, ih5]
        omega

/-- C1: when every fetch attempt fails (max_retries = 3, so four consecutive
fetch failures), the retry loop terminates and the final ledger row has
job_status "failed", retry_count equal to max_retries (3), and a message
containing the final fetch error. -/
theorem allFail_final_ledger (errs : Nat → String) (durs : Nat → Nat)
    (storeResult : StoreOracle) (storeMs : Nat) (row : JobExecution) :
    (executeJobWithRetry (fun k => (Except.error (errs k), durs k)) storeResult
        storeMs row).2.jobStatus = "failed" ∧
    (executeJobWithRetry (fun k => (Except.error (errs k), durs k)) storeResult
        storeMs row).2.retryCount = 3 ∧
    ∃ m, (executeJobWithRetry (fun k => (Except.error (errs k), durs k))
        storeResult storeMs row).2.message = some m ∧ containsStr m (errs 3) := by
  obtain ⟨h1, h2, h3, _, _⟩ := runRetry_allFail errs durs storeResult storeMs
    4 0 0 row (by omega) (by omega)
  simp only [executeJobWithRetry]
  refine ⟨h1, h2, mkFailMsg 4 4 (errs 3), h3, ?_⟩
  refine ⟨("Job failed (attempt " ++ toString 4 ++ "/" ++ toString 4 ++
    "): ").data, [], ?_⟩
  simp [mkFailMsg, String.data_append]

/-- C5: with fetch failing at every attempt, the run sleeps exactly
backoffMs 1, backoffMs 2, backoffMs 3 (in that order) before retries 1, 2, 3,
and those delays are exactly 2^(n-1) minutes (60000 ms per minute) for
n = 1, 2, 3: a strictly increasing sequence determined by the attempt index
alone. -/
theorem backoff_sequence (errs : Nat → String) (durs : Nat → Nat)
    (storeResult : StoreOracle) (storeMs : Nat) (row : JobExecution) :
    sleepsOf (executeJobWithRetry (fun k => (Except.error (errs k), durs k))
        storeResult storeMs row).1 =
      [backoffMs 1, backoffMs 2, backoffMs 3] ∧
    backoffMs 1 = 2 ^ (1 - 1) * 60000 ∧
    backoffMs 2 = 2 ^ (2 - 1) * 60000 ∧
    backoffMs 3 = 2 ^ (3 - 1) * 60000 ∧
    backoffMs 1 < backoffMs 2 ∧ backoffMs 2 < backoffMs 3 := by
  obtain ⟨_, _, _, h4, _⟩ := runRetry_allFail errs durs storeResult storeMs
    4 0 0 row (by omega) (by omega)
  simp only [executeJobWithRetry]
  refine ⟨?_, by decide, by decide, by decide, by decide, by decide⟩
  rw [h4]
  decide

theorem runRetry_okThenStoreFail (j : Nat) (errs : Nat → String)
    (durs : Nat → Nat) (recs : List FuneralInvoiceRow)
    (storeResult : StoreOracle) (storeMs : Nat) (se : String)
    (hj : j ≤ 3) (hs : storeResult recs = Except.error se) :
    ∀ (fuel rc clock : Nat) (row : JobExecution), rc ≤ j → 4 ≤ fuel + rc →
      (runRetry (fun k => if k < j then (Except.error (errs k), durs k)
          else (Except.ok recs, durs k)) storeResult storeMs
          fuel rc clock row).2.jobStatus = "failed" ∧
      (runRetry (fun k => if k < j then (Except.error (errs k), durs k)
          else (Except.ok recs, durs k)) storeResult storeMs
          fuel rc clock row).2.retryCount = j ∧
      (runRetry (fun k => if k < j then (Except.error (errs k), durs k)
          else (Except.ok recs, durs k)) storeResult storeMs
          fuel rc clock row).2.message = some (mkStoreFailMsg se) ∧
      countFetch (runRetry (fun k => if k < j then (Except.error (errs k), durs k)
          else (Except.ok recs, durs k)) storeResult storeMs
          fuel rc clock row).1 = j - rc + 1 ∧
      noFetchAfterStore (runRetry (fun k => if k < j then
          (Except.error (errs k), durs k) else (Except.ok recs, durs k))
          storeResult storeMs fuel rc clock row).1 = true := by
  intro fuel
  induction fuel with
  | zero => intro rc clock row h1 h2; omega
  | succ fuel ih =>
    intro rc clock row h1 h2
    by_cases hrcj : rc = j
    · subst hrcj
      have hf : (fun k => if k < rc then (Except.error (errs k), durs k)
          else (Except.ok recs, durs k)) rc = (Except.ok recs, durs rc) := by
        simp
      rw [runRetry_ok_storeFail _ storeResult storeMs fuel rc clock row recs
        (durs rc) se (by omega) hf hs]
      refine ⟨rfl, rfl, rfl, ?_, ?_⟩ <;> simp
    · have hlt : rc < j := by omega
      have hf : (fun k => if k < j then (Except.error (errs k), durs k)
          else (Except.ok recs, durs k)) rc = (Except.error (errs rc), durs rc) := by
        simp [hlt]
      rw [runRetry_fail_cont _ storeResult storeMs fuel rc clock row (errs rc)
        (durs rc) (by omega) hf]
      obtain ⟨ih1, ih2, ih3, ih4, ih5⟩ := ih (rc + 1)
        (clock + durs rc + backoffMs (rc + 1))
        (updateJobExecution
          (updateJobExecution row
            ⟨if 0 < rc then "retrying" else "running", "", 0, rc, clock⟩)
          ⟨"retrying", mkFailMsg (rc + 1) 4 (errs rc), clock + durs rc, rc,
            clock + durs rc⟩)
        (by omega) (by omega)
      refine ⟨ih1, ih2, ih3, ?_, ?_⟩
      · simp only [countFetch_cons_update, countFetch_cons_fetch,
          countFetch_cons_sleep, ih4]
        omega
      · simpa using ih5

/-- C3: the fetch fails j times then succeeds at attempt index j, and the
subsequent store fails: the fetch is never re-attempted (exactly j + 1 fetch
calls, none after the store call), the ledger row ends "failed", the recorded
retry_count stays at j — the value it had when the fetch succeeded — and the
message is the distinguishing fetched-but-not-stored form
`mkStoreFailMsg` rather than the fetch-failure form. -/
theorem storeFail_not_retried (j : Nat) (errs : Nat → String)
    (durs : Nat → Nat) (recs : List FuneralInvoiceRow)
    (storeResult : StoreOracle) (storeMs : Nat) (se : String)
    (hj : j ≤ 3) (hs : storeResult recs = Except.error se) :
    (executeJobWithRetry (fun k => if k < j then (Except.error (errs k), durs k)
        else (Except.ok recs, durs k)) storeResult storeMs
        (mkJobExecution ("get-funeral-invoice") ("2024-01-01") "" 3 0)).2.jobStatus
        = "failed" ∧
    (executeJobWithRetry (fun k => if k < j then (Except.error (errs k), durs k)
        else (Except.ok recs, durs k)) storeResult storeMs
        (mkJobExecution ("get-funeral-invoice") ("2024-01-01") "" 3 0)).2.retryCount
        = j ∧
    (executeJobWithRetry (fun k => if k < j then (Except.error (errs k), durs k)
        else (Except.ok recs, durs k)) storeResult storeMs
        (mkJobExecution ("get-funeral-invoice") ("2024-01-01") "" 3 0)).2.message
        = some (mkStoreFailMsg se) ∧
    countFetch (executeJobWithRetry (fun k => if k < j then
        (Except.error (errs k), durs k) else (Except.ok recs, durs k))
        storeResult storeMs
        (mkJobExecution ("get-funeral-invoice") ("2024-01-01") "" 3 0)).1 = j + 1 ∧
    noFetchAfterStore (executeJobWithRetry (fun k => if k < j then
        (Except.error (errs k), durs k) else (Except.ok recs, durs k))
        storeResult storeMs
        (mkJobExecution ("get-funeral-invoice") ("2024-01-01") "" 3 0)).1 = true := by
  obtain ⟨h1, h2, h3, h4, h5⟩ := runRetry_okThenStoreFail j errs durs recs
    storeResult storeMs se hj hs 4 0 0
    (mkJobExecution ("get-funeral-invoice") ("2024-01-01") "" 3 0)
    (by omega) (by omega)
  simp only [executeJobWithRetry]
  exact ⟨h1, h2, h3, by simpa using h4, h5⟩

theorem storeFail_not_retried_witness :
    (executeJobWithRetry (fun k => if k < 1 then
        (Except.error ((fun _ : Nat => ("neterr")) k), (fun _ : Nat => 5) k)
        else (Except.ok ([⟨"2024-01-01", "A", 10⟩] : List FuneralInvoiceRow),
          (fun _ : Nat => 5) k))
        (fun _ => Except.error ("disk full")) 7
        (mkJobExecution ("get-funeral-invoice") ("2024-01-01") "" 3 0)).2.jobStatus
        = "failed" ∧
    (executeJobWithRetry (fun k => if k < 1 then
        (Except.error ((fun _ : Nat => ("neterr")) k), (fun _ : Nat => 5) k)
        else (Except.ok ([⟨"2024-01-01", "A", 10⟩] : List FuneralInvoiceRow),
          (fun _ : Nat => 5) k))
        (fun _ => Except.error ("disk full")) 7
        (mkJobExecution ("get-funeral-invoice") ("2024-01-01") "" 3 0)).2.retryCount
        = 1 ∧
    (executeJobWithRetry (fun k => if k < 1 then
        (Except.error ((fun _ : Nat => ("neterr")) k), (fun _ : Nat => 5) k)
        else (Except.ok ([⟨"2024-01-01", "A", 10⟩] : List FuneralInvoiceRow),
          (fun _ : Nat => 5) k))
        (fun _ => Except.error ("disk full")) 7
        (mkJobExecution ("get-funeral-invoice") ("2024-01-01") "" 3 0)).2.message
        = some (mkStoreFailMsg ("disk full")) ∧
    countFetch (executeJobWithRetry (fun k => if k < 1 then
        (Except.error ((fun _ : Nat => ("neterr")) k), (fun _ : Nat => 5) k)
        else (Except.ok ([⟨"2024-01-01", "A", 10⟩] : List FuneralInvoiceRow),
          (fun _ : Nat => 5) k))
        (fun _ => Except.error ("disk full")) 7
        (mkJobExecution ("get-funeral-invoice") ("2024-01-01") "" 3 0)).1 = 1 + 1 ∧
    noFetchAfterStore (executeJobWithRetry (fun k => if k < 1 then
        (Except.error ((fun _ : Nat => ("neterr")) k), (fun _ : Nat => 5) k)
        else (Except.ok ([⟨"2024-01-01", "A", 10⟩] : List FuneralInvoiceRow),
          (fun _ : Nat => 5) k))
        (fun _ => Except.error ("disk full")) 7
        (mkJobExecution ("get-funeral-invoice") ("2024-01-01") "" 3 0)).1 = true :=
  storeFail_not_retried 1 (fun _ => ("neterr")) (fun _ => 5)
    ([⟨"2024-01-01", "A", 10⟩] : List FuneralInvoiceRow)
    (fun _ => Except.error ("disk full")) 7 ("disk full") (by omega) rfl

theorem isTerminalStatus_step (rc : Nat) :
    isTerminalStatus (if 0 < rc then "retrying" else "running") = false := by
  by_cases h : 0 < rc
  · rw [if_pos h]; rfl
  · rw [if_neg h]; rfl

theorem runRetry_updates_shape (fetch : FetchOracle) (storeResult : StoreOracle)
    (storeMs : Nat) :
    ∀ (fuel rc clock : Nat) (row : JobExecution), rc ≤ 3 → 4 ≤ fuel + rc →
      ∃ us t, updatesOf (runRetry fetch storeResult storeMs fuel rc clock row).1
          = us ++ [t] ∧
        (∀ u ∈ us, isTerminalStatus u.status = false) ∧
        isTerminalStatus t.status = true := by
  intro fuel
  induction fuel with
  | zero => intro rc clock row h1 h2; omega
  | succ fuel ih =>
    intro rc clock row h1 h2
    rcases hf : fetch rc with ⟨res, d⟩
    cases res with
    | error e =>
      by_cases hrc : rc = 3
      · subst hrc
        rw [runRetry_fail_last fetch storeResult storeMs fuel clock row e d hf]
        refine ⟨[⟨"retrying", "", 0, 3, clock⟩],
          ⟨"failed", mkFailMsg 4 4 e, clock + d, 3, clock + d⟩, by simp, ?_, rfl⟩
        intro u hu
        rw [List.mem_singleton] at hu
        subst hu
        rfl
      · rw [runRetry_fail_cont fetch storeResult storeMs fuel rc clock row e d
          (by omega) hf]
        obtain ⟨us, t, hus, hnt, ht⟩ := ih (rc + 1)
          (clock + d + backoffMs (rc + 1))
          (updateJobExecution
            (updateJobExecution row
              ⟨if 0 < rc then "retrying" else "running", "", 0, rc, clock⟩)
            ⟨"retrying", mkFailMsg (rc + 1) 4 e, clock + d, rc, clock + d⟩)
          (by omega) (by omega)
        refine ⟨⟨if 0 < rc then "retrying" else "running", "", 0, rc, clock⟩ ::
          ⟨"retrying", mkFailMsg (rc + 1) 4 e, clock + d, rc, clock + d⟩ :: us,
          t, ?_, ?_, ht⟩
        · simp [hus]
        · intro u hu
          rcases List.mem_cons.1 hu with h0 | hu
          · subst h0; exact isTerminalStatus_step rc
          · rcases List.mem_cons.1 hu with h0 | hu
            · subst h0; rfl
            · exact hnt u hu
    | ok inv =>
      cases hst : storeResult inv with
      | error se =>
        rw [runRetry_ok_storeFail fetch storeResult storeMs fuel rc clock row
          inv d se h1 hf hst]
        refine ⟨[⟨if 0 < rc then "retrying" else "running", "", 0, rc, clock⟩],
          ⟨"failed", mkStoreFailMsg se, clock + d, rc, clock + d + storeMs⟩,
          by simp, ?_, rfl⟩
        intro u hu
        rw [List.mem_singleton] at hu
        subst hu
        exact isTerminalStatus_step rc
      | ok n =>
        rw [runRetry_ok_storeOk fetch storeResult storeMs fuel rc clock row
          inv d n h1 hf hst]
        refine ⟨[⟨if 0 < rc then "retrying" else "running", "", 0, rc, clock⟩],
          ⟨"finished", mkSuccessMsg inv.length, clock + d, rc, clock + d + storeMs⟩,
          by simp, ?_, rfl⟩
        intro u hu
        rw [List.mem_singleton] at hu
        subst hu
        exact isTerminalStatus_step rc

theorem prefix_snoc_cases {α : Type} {p us : List α} {t : α}
    (h : p <+: us ++ [t]) : p <+: us ∨ p = us ++ [t] := by
  rcases h with ⟨r, hr⟩
  rcases List.eq_nil_or_concat r with rfl | ⟨r0, last, rfl⟩
  · right; simpa using hr
  · left
    rw [List.concat_eq_append, ← List.append_assoc] at hr
    exact ⟨r0, (List.append_inj' hr rfl).1⟩

theorem applyUpdates_append (init : JobExecution) (us vs : List UpdateArgs) :
    applyUpdates init (us ++ vs) = applyUpdates (applyUpdates init us) vs := by
  simp [applyUpdates, List.foldl_append]

theorem applyUpdates_nonterminal :
    ∀ (us : List UpdateArgs) (init : JobExecution),
      init.finishedAt = none → isTerminalStatus init.jobStatus = false →
      (∀ u ∈ us, isTerminalStatus u.status = false) →
      (applyUpdates init us).finishedAt = none ∧
        isTerminalStatus (applyUpdates init us).jobStatus = false
  | [], _, hfin, hstat, _ => ⟨hfin, hstat⟩
  | u :: us, init, hfin, _, hall => by
    have hu : isTerminalStatus u.status = false := hall u (List.mem_cons_self u us)
    refine applyUpdates_nonterminal us (updateJobExecution init u) ?_ ?_
      fun v hv => hall v (List.mem_cons_of_mem _ hv)
    · simp [updateJobExecution, hu, hfin]
    · simp [updateJobExecution, hu]

/-- C7: along any run of the retry loop on a freshly created ledger row, after
every prefix of the issued updateJobExecution calls the row has finished_at
set if and only if its job_status is terminal ('finished' or 'failed'), and a
terminal update is always the last update the engine ever issues for the row. -/
theorem ledger_terminal_invariant (fetch : FetchOracle)
    (storeResult : StoreOracle) (storeMs : Nat)
    (jobName jobDate jobParams : String) (m now : Nat) :
    (∀ p, p <+: updatesOf (executeJobWithRetry fetch storeResult storeMs
        (mkJobExecution jobName jobDate jobParams m now)).1 →
      (((applyUpdates (mkJobExecution jobName jobDate jobParams m now)
          p).finishedAt ≠ none) ↔
        isTerminalStatus (applyUpdates (mkJobExecution jobName jobDate jobParams
          m now) p).jobStatus = true)) ∧
    (∀ i (h : i < (updatesOf (executeJobWithRetry fetch storeResult storeMs
        (mkJobExecution jobName jobDate jobParams m now)).1).length),
      isTerminalStatus ((updatesOf (executeJobWithRetry fetch storeResult
        storeMs (mkJobExecution jobName jobDate jobParams m now)).1).get
          ⟨i, h⟩).status = true →
      i + 1 = (updatesOf (executeJobWithRetry fetch storeResult storeMs
        (mkJobExecution jobName jobDate jobParams m now)).1).length) := by
  obtain ⟨us, t, hus, hnt, ht⟩ := runRetry_updates_shape fetch storeResult
    storeMs 4 0 0 (mkJobExecution jobName jobDate jobParams m now)
    (by omega) (by omega)
  simp only [executeJobWithRetry]
  rw [hus]
  constructor
  · intro p hp
    rcases prefix_snoc_cases hp with hp1 | rfl
    · have hsub : ∀ u ∈ p, isTerminalStatus u.status = false :=
        fun u hu => hnt u (hp1.subset hu)
      obtain ⟨hfin, hstat⟩ := applyUpdates_nonterminal p
        (mkJobExecution jobName jobDate jobParams m now) rfl rfl hsub
      rw [hfin, hstat]
      simp
    · rw [applyUpdates_append]
      simp [applyUpdates, updateJobExecution, ht]
  · intro i h hterm
    rcases Nat.lt_or_ge i us.length with hi | hi
    · exfalso
      have hget : (us ++ [t]).get ⟨i, h⟩ = us.get ⟨i, hi⟩ := by
        simp [List.get_eq_getElem, List.getElem_append_left hi]
      rw [hget] at hterm
      have := hnt (us.get ⟨i, hi⟩) (us.get_mem i hi)
      rw [this] at hterm
      exact Bool.false_ne_true hterm
    · have hlen : (us ++ [t]).length = us.length + 1 := by
        simp
      rw [hlen]
      rw [hlen] at h
      omega

theorem ledger_terminal_invariant_witness :
    ((applyUpdates (mkJobExecution ("get-funeral-invoice") ("2024-01-01")
        ("") 3 0)
        (updatesOf (executeJobWithRetry (fun _ => (Except.error ("e"), 1))
          (fun _ => Except.ok 0) 1
          (mkJobExecution ("get-funeral-invoice") ("2024-01-01")
            ("") 3 0)).1)).finishedAt ≠ none) ↔
      isTerminalStatus (applyUpdates (mkJobExecution ("get-funeral-invoice")
        ("2024-01-01") ("") 3 0)
        (updatesOf (executeJobWithRetry (fun _ => (Except.error ("e"), 1))
          (fun _ => Except.ok 0) 1
          (mkJobExecution ("get-funeral-invoice") ("2024-01-01")
            ("") 3 0)).1)).jobStatus = true :=
  (ledger_terminal_invariant (fun _ => (Except.error ("e"), 1))
      (fun _ => Except.ok 0) 1 ("get-funeral-invoice") ("2024-01-01")
      ("") 3 0).1
    (updatesOf (executeJobWithRetry (fun _ => (Except.error ("e"), 1))
      (fun _ => Except.ok 0) 1
      (mkJobExecution ("get-funeral-invoice") ("2024-01-01") ("") 3 0)).1)
    ⟨[], List.append_nil _⟩

theorem runRetryV_fail_last (fetch : FetchOracle) (storeResult : StoreOracle)
    (storeMs fuel clock total : Nat) (row : JobExecution) (e : String) (d : Nat)
    (hf : fetch 3 = (Except.error e, d)) :
    runRetryV fetch storeResult storeMs (fuel + 1) 3 clock total row =
      ([Event.update ⟨"retrying", "", 0, 3, clock⟩, Event.fetch 3 d,
        Event.update ⟨"failed", mkFailMsgV 4 4 d e, total + d, 3, clock + d⟩],
       updateJobExecution
         (updateJobExecution row ⟨"retrying", "", 0, 3, clock⟩)
         ⟨"failed", mkFailMsgV 4 4 d e, total + d, 3, clock + d⟩) := by
  simp [runRetryV, hf]

theorem runRetryV_fail_cont (fetch : FetchOracle) (storeResult : StoreOracle)
    (storeMs fuel rc clock total : Nat) (row : JobExecution) (e : String)
    (d : Nat) (hrc : rc < 3) (hf : fetch rc = (Except.error e, d)) :
    runRetryV fetch storeResult storeMs (fuel + 1) rc clock total row =
      (Event.update ⟨if 0 < rc then "retrying" else "running", "", 0, rc, clock⟩ ::
        Event.fetch rc d ::
        Event.update ⟨"retrying", mkFailMsgV (rc + 1) 4 d e, total + d, rc,
          clock + d⟩ ::
        Event.sleep (backoffMs (rc + 1)) ::
        (runRetryV fetch storeResult storeMs fuel (rc + 1)
          (clock + d + backoffMs (rc + 1)) (total + d)
          (updateJobExecution
            (updateJobExecution row
              ⟨if 0 < rc then "retrying" else "running", "", 0, rc, clock⟩)
            ⟨"retrying", mkFailMsgV (rc + 1) 4 d e, total + d, rc, clock + d⟩)).1,
       (runRetryV fetch storeResult storeMs fuel (rc + 1)
          (clock + d + backoffMs (rc + 1)) (total + d)
          (updateJobExecution
            (updateJobExecution row
              ⟨if 0 < rc then "retrying" else "running", "", 0, rc, clock⟩)
            ⟨"retrying", mkFailMsgV (rc + 1) 4 d e, total + d, rc, clock + d⟩)).2) := by
  have h1 : ¬ 3 < rc := by omega
  have h2 : ¬ 3 < rc + 1 := by omega
  simp [runRetryV, h1, h2, hf]

theorem runRetryV_ok_storeFail (fetch : FetchOracle) (storeResult : StoreOracle)
    (storeMs fuel rc clock total : Nat) (row : JobExecution)
    (inv : List FuneralInvoiceRow) (d : Nat) (se : String)
    (hrc : rc ≤ 3) (hf : fetch rc = (Except.ok inv, d))
    (hs : storeResult inv = Except.error se) :
    runRetryV fetch storeResult storeMs (fuel + 1) rc clock total row =
      ([Event.update ⟨if 0 < rc then "retrying" else "running", "", 0, rc, clock⟩,
        Event.fetch rc d, Event.store storeMs,
        Event.update ⟨"failed", mkStoreFailMsgV d storeMs se,
          total + d + storeMs, rc, clock + d + storeMs⟩],
       updateJobExecution
         (updateJobExecution row
           ⟨if 0 < rc then "retrying" else "running", "", 0, rc, clock⟩)
         ⟨"failed", mkStoreFailMsgV d storeMs se, total + d + storeMs, rc,
           clock + d + storeMs⟩) := by
  have h1 : ¬ 3 < rc := by omega
  simp [runRetryV, h1, hf, hs]

theorem runRetryV_ok_storeOk (fetch : FetchOracle) (storeResult : StoreOracle)
    (storeMs fuel rc clock total : Nat) (row : JobExecution)
    (inv : List FuneralInvoiceRow) (d n : Nat)
    (hrc : rc ≤ 3) (hf : fetch rc = (Except.ok inv, d))
    (hs : storeResult inv = Except.ok n) :
    runRetryV fetch storeResult storeMs (fuel + 1) rc clock total row =
      ([Event.update ⟨if 0 < rc then "retrying" else "running", "", 0, rc, clock⟩,
        Event.fetch rc d, Event.store storeMs,
        Event.update ⟨"finished", mkSuccessMsgV inv.length d storeMs,
          total + d + storeMs, rc, clock + d + storeMs⟩],
       updateJobExecution
         (updateJobExecution row
           ⟨if 0 < rc then "retrying" else "running", "", 0, rc, clock⟩)
         ⟨"finished", mkSuccessMsgV inv.length d storeMs, total + d + storeMs,
           rc, clock + d + storeMs⟩) := by
  have h1 : ¬ 3 < rc := by omega
  simp [runRetryV, h1, hf, hs]

theorem runRetryV_time (fetch : FetchOracle) (storeResult : StoreOracle)
    (storeMs : Nat) :
    ∀ (fuel rc clock total : Nat) (row : JobExecution), rc ≤ 3 →
      4 ≤ fuel + rc →
      (runRetryV fetch storeResult storeMs fuel rc clock
          total row).2.executionTimeMs =
        some (total + fetchStoreTime (runRetryV fetch storeResult storeMs fuel
          rc clock total row).1) := by
  intro fuel
  induction fuel with
  | zero => intro rc clock total row h1 h2; omega
  | succ fuel ih =>
    intro rc clock total row h1 h2
    rcases hf : fetch rc with ⟨res, d⟩
    cases res with
    | error e =>
      by_cases hrc : rc = 3
      · subst hrc
        rw [runRetryV_fail_last fetch storeResult storeMs fuel clock total
          row e d hf]
        simp [updateJobExecution]
      · rw [runRetryV_fail_cont fetch storeResult storeMs fuel rc clock total
          row e d (by omega) hf]
        have := ih (rc + 1) (clock + d + backoffMs (rc + 1)) (total + d)
          (updateJobExecution
            (updateJobExecution row
              ⟨if 0 < rc then "retrying" else "running", "", 0, rc, clock⟩)
            ⟨"retrying", mkFailMsgV (rc + 1) 4 d e, total + d, rc, clock + d⟩)
          (by omega) (by omega)
        rw [this]
        simp only [fetchStoreTime_cons_update, fetchStoreTime_cons_fetch,
          fetchStoreTime_cons_sleep, Option.some.injEq]
        omega
    | ok inv =>
      cases hst : storeResult inv with
      | error se =>
        rw [runRetryV_ok_storeFail fetch storeResult storeMs fuel rc clock
          total row inv d se h1 hf hst]
        simp [updateJobExecution]
        omega
      | ok n =>
        rw [runRetryV_ok_storeOk fetch storeResult storeMs fuel rc clock
          total row inv d n h1 hf hst]
        simp [updateJobExecution]
        omega

/-- C8 (amended): in the variant scheduler file (unnamed part_000), the
execution_time_ms persisted to the final ledger row equals the cumulative
milliseconds spent inside the fetch and store calls across all attempts of
the run — backoff sleeps are excluded, and on the success path the measured
store duration is included. -/
theorem executionTimeV_fetchStore (fetch : FetchOracle)
    (storeResult : StoreOracle) (storeMs : Nat) (row : JobExecution) :
    (executeJobWithRetryV fetch storeResult storeMs row).2.executionTimeMs =
      some (fetchStoreTime (executeJobWithRetryV fetch storeResult storeMs
        row).1) := by
  have := runRetryV_time fetch storeResult storeMs 4 0 0 0 row (by omega)
    (by omega)
  simpa [executeJobWithRetryV] using this

/-- C8 counterexample: in `executeJobWithRetry` of
`internal/scheduler/scheduler.go`, `executionTime := time.Since(start)` is
measured from the start of the whole loop.  With one failed fetch of 100 ms, a
60000 ms backoff, a successful fetch of 50 ms and a 70 ms store, the persisted
execution_time_ms is 60150 — it includes the backoff sleep and excludes the
store duration — while the cumulative fetch+store time of the run is 220. -/
theorem executionTime_includes_backoff_cex :
    (executeJobWithRetry
        (fun k => if k = 0 then (Except.error ("boom"), 100)
          else (Except.ok [], 50))
        (fun _ => Except.ok 0) 70
        (mkJobExecution ("get-funeral-invoice") ("2024-01-01") ("") 3 0)
      ).2.executionTimeMs = some 60150 ∧
    fetchStoreTime (executeJobWithRetry
        (fun k => if k = 0 then (Except.error ("boom"), 100)
          else (Except.ok [], 50))
        (fun _ => Except.ok 0) 70
        (mkJobExecution ("get-funeral-invoice") ("2024-01-01") ("") 3 0)).1
      = 220 ∧
    (60150 : Nat) ≠ 220 := by
  refine ⟨rfl, rfl, by omega⟩

/-- C9: if creating the initial ledger row fails, the job invocation aborts
before any remote call: the creation error is surfaced immediately, the event
trace is empty (no fetch attempt, no ledger update, no backoff — no retry loop
starts), and no ledger row exists. -/
theorem createFail_aborts (e : String) (fetch : FetchOracle)
    (storeResult : StoreOracle) (storeMs : Nat) (jobDate : String) (now : Nat) :
    executeFuneralInvoiceJob (some e) fetch storeResult storeMs jobDate now =
      (some ("creating job execution: " ++ e), [], none) ∧
    countFetch (executeFuneralInvoiceJob (some e) fetch storeResult storeMs
      jobDate now).2.1 = 0 :=
  ⟨rfl, rfl⟩

theorem runRetry_countFetch_le (fetch : FetchOracle) (storeResult : StoreOracle)
    (storeMs : Nat) :
    ∀ (fuel rc clock : Nat) (row : JobExecution),
      countFetch (runRetry fetch storeResult storeMs fuel rc clock row).1 ≤ fuel := by
  intro fuel
  induction fuel with
  | zero => intro rc clock row; simp [runRetry]
  | succ fuel ih =>
    intro rc clock row
    by_cases hg : 3 < rc
    · simp [runRetry, hg]
    · rcases hf : fetch rc with ⟨res, d⟩
      cases res with
      | error e =>
        by_cases hrc : rc = 3
        · subst hrc
          rw [runRetry_fail_last fetch storeResult storeMs fuel clock row e d hf]
          simp
        · rw [runRetry_fail_cont fetch storeResult storeMs fuel rc clock row
            e d (by omega) hf]
          simp only [countFetch_cons_update, countFetch_cons_fetch,
            countFetch_cons_sleep]
          have := ih (rc + 1) (clock + d + backoffMs (rc + 1))
            (updateJobExecution
              (updateJobExecution row
                ⟨if 0 < rc then "retrying" else "running", "", 0, rc, clock⟩)
              ⟨"retrying", mkFailMsg (rc + 1) 4 e, clock + d, rc, clock + d⟩)
          omega
      | ok inv =>
        cases hst : storeResult inv with
        | error se =>
          rw [runRetry_ok_storeFail fetch storeResult storeMs fuel rc clock
            row inv d se (by omega) hf hst]
          simp
        | ok n =>
          rw [runRetry_ok_storeOk fetch storeResult storeMs fuel rc clock
            row inv d n (by omega) hf hst]
          simp

theorem runRetry_events_row_irrel (fetch : FetchOracle)
    (storeResult : StoreOracle) (storeMs : Nat) :
    ∀ (fuel rc clock : Nat) (row1 row2 : JobExecution),
      (runRetry fetch storeResult storeMs fuel rc clock row1).1 =
        (runRetry fetch storeResult storeMs fuel rc clock row2).1 := by
  intro fuel
  induction fuel with
  | zero => intro rc clock row1 row2; rfl
  | succ fuel ih =>
    intro rc clock row1 row2
    by_cases hg : 3 < rc
    · simp [runRetry, hg]
    · rcases hf : fetch rc with ⟨res, d⟩
      cases res with
      | error e =>
        by_cases hrc : rc = 3
        · subst hrc
          rw [runRetry_fail_last fetch storeResult storeMs fuel clock row1 e d hf,
            runRetry_fail_last fetch storeResult storeMs fuel clock row2 e d hf]
        · rw [runRetry_fail_cont fetch storeResult storeMs fuel rc clock row1
            e d (by omega) hf,
            runRetry_fail_cont fetch storeResult storeMs fuel rc clock row2
            e d (by omega) hf]
          simp only [List.cons.injEq, true_and]
          exact ih (rc + 1) _ _ _
      | ok inv =>
        cases hst : storeResult inv with
        | error se =>
          rw [runRetry_ok_storeFail fetch storeResult storeMs fuel rc clock
            row1 inv d se (by omega) hf hst,
            runRetry_ok_storeFail fetch storeResult storeMs fuel rc clock
            row2 inv d se (by omega) hf hst]
        | ok n =>
          rw [runRetry_ok_storeOk fetch storeResult storeMs fuel rc clock
            row1 inv d n (by omega) hf hst,
            runRetry_ok_storeOk fetch storeResult storeMs fuel rc clock
            row2 inv d n (by omega) hf hst]

theorem runRetry_maxRetries_preserved (fetch : FetchOracle)
    (storeResult : StoreOracle) (storeMs : Nat) :
    ∀ (fuel rc clock : Nat) (row : JobExecution),
      (runRetry fetch storeResult storeMs fuel rc clock row).2.maxRetries =
        row.maxRetries := by
  intro fuel
  induction fuel with
  | zero => intro rc clock row; rfl
  | succ fuel ih =>
    intro rc clock row
    by_cases hg : 3 < rc
    · simp [runRetry, hg]
    · rcases hf : fetch rc with ⟨res, d⟩
      cases res with
      | error e =>
        by_cases hrc : rc = 3
        · subst hrc
          rw [runRetry_fail_last fetch storeResult storeMs fuel clock row e d hf]
          rfl
        · rw [runRetry_fail_cont fetch storeResult storeMs fuel rc clock row
            e d (by omega) hf]
          rw [ih (rc + 1) _ _]
          rfl
      | ok inv =>
        cases hst : storeResult inv with
        | error se =>
          rw [runRetry_ok_storeFail fetch storeResult storeMs fuel rc clock
            row inv d se (by omega) hf hst]
          rfl
        | ok n =>
          rw [runRetry_ok_storeOk fetch storeResult storeMs fuel rc clock
            row inv d n (by omega) hf hst]
          rfl

/-- C10: the retry ceiling actually used by the loop is the hardcoded
constant 3: a run started on a row created with an arbitrary max_retries m
performs at most 4 fetch attempts, its event trace is identical to that of a
row created with max_retries 3 (the column is merely carried through
unchanged into the final row), and with an always-failing fetch the run
performs exactly 4 attempts and records retry_count 3, for every m. -/
theorem retry_ceiling_hardcoded (m : Nat) (fetch : FetchOracle)
    (storeResult : StoreOracle) (storeMs : Nat) (jobDate : String)
    (now1 now2 : Nat) (errs : Nat → String) (durs : Nat → Nat) :
    countFetch (executeJobCreatedWith m fetch storeResult storeMs jobDate
      now1).1 ≤ 4 ∧
    (executeJobCreatedWith m fetch storeResult storeMs jobDate now1).1 =
      (executeJobCreatedWith 3 fetch storeResult storeMs jobDate now2).1 ∧
    (executeJobCreatedWith m fetch storeResult storeMs jobDate
      now1).2.maxRetries = m ∧
    countFetch (executeJobCreatedWith m
      (fun k => (Except.error (errs k), durs k)) storeResult storeMs jobDate
      now1).1 = 4 ∧
    (executeJobCreatedWith m (fun k => (Except.error (errs k), durs k))
      storeResult storeMs jobDate now1).2.retryCount = 3 := by
  obtain ⟨_, hrc, _, _, hcnt⟩ := runRetry_allFail errs durs storeResult storeMs
    4 0 0 (mkJobExecution ("get-funeral-invoice") jobDate (paramsJSON jobDate)
      m now1) (by omega) (by omega)
  refine ⟨?_, ?_, ?_, ?_, ?_⟩
  · exact runRetry_countFetch_le fetch storeResult storeMs 4 0 0 _
  · exact runRetry_events_row_irrel fetch storeResult storeMs 4 0 0 _ _
  · exact runRetry_maxRetries_preserved fetch storeResult storeMs 4 0 0 _
  · exact hcnt
  · exact hrc

/-- C4 counterexample: with an empty job_executions table, creating the same
(job_name, job_date) pair twice does not fail — the second
createJobExecution call succeeds and the table ends with two rows for the
pair, because the schema declares no uniqueness on (job_name, job_date). -/
theorem create_duplicate_not_prevented_cex :
    ((createJobExecution
      (createJobExecution [] ("get-funeral-invoice") ("2024-01-01") ("") 3 0).1
      ("get-funeral-invoice") ("2024-01-01") ("") 3 1).1.length = 2) ∧
    (((createJobExecution
      (createJobExecution [] ("get-funeral-invoice") ("2024-01-01") ("") 3 0).1
      ("get-funeral-invoice") ("2024-01-01") ("") 3 1).1.filter fun r =>
        r.jobName == "get-funeral-invoice" && r.jobDate == "2024-01-01").length
      = 2) ∧
    jobExecutionsHasUniqueNameDate = false := by
  refine ⟨rfl, rfl, rfl⟩

/-- C4 (amended): the job_executions schema declares no uniqueness constraint
on (job_name, job_date) — only a plain index — so duplicate logical
submissions are not prevented at creation time: a second createJobExecution
call with the same pair always succeeds and appends a second ledger row, and
the table then holds at least two rows for the pair. -/
theorem create_duplicate_appends (tbl : List JobExecution)
    (jobName jobDate p1 p2 : String) (m1 m2 t1 t2 : Nat) :
    (createJobExecution (createJobExecution tbl jobName jobDate p1 m1 t1).1
        jobName jobDate p2 m2 t2).1.length = tbl.length + 2 ∧
    2 ≤ ((createJobExecution (createJobExecution tbl jobName jobDate p1 m1
        t1).1 jobName jobDate p2 m2 t2).1.filter fun r =>
          r.jobName == jobName && r.jobDate == jobDate).length ∧
    jobExecutionsHasUniqueNameDate = false := by
  refine ⟨by simp [createJobExecution], ?_, rfl⟩
  simp [createJobExecution, List.filter_append, mkJobExecution]

theorem store_insert_error_rolls_back_witness :
    storeFuneralInvoices none none none
        (fun j => if j = 1 then some ("disk full") else none) []
        ([⟨"2024-01-01", "A", 10⟩, ⟨"2024-01-01", "B", 7⟩] :
          List FuneralInvoiceRow) =
      ([], Except.error ("inserting invoice: " ++ "disk full")) :=
  store_insert_error_rolls_back none
    (fun j => if j = 1 then some ("disk full") else none) []
    ([⟨"2024-01-01", "A", 10⟩, ⟨"2024-01-01", "B", 7⟩] : List FuneralInvoiceRow)
    1 ("disk full") (by decide) (by decide) (by decide)

end GoCronBe
